import Mathlib

/-!
Shallow embedding of the activity-triggered dual-stream recording engine of
`simple_windows_recorder` (files `src/audio/activity_detector.py`,
`src/audio/circular_buffer.py`, `src/audio/post_processor.py`,
`src/audio/auto_recorder.py`).

Modelling conventions:
* wall-clock timestamps and float sample values are modelled as exact
  rationals (`ℚ`); the Real-valued test buffers of the spec use `ℝ`;
* a Python `None`-able timestamp is an `Option ℚ`;
* the comparison `sqrt(mean(x^2)) > thr` of the source is embedded as
  `mean(x^2) > thr * thr`, which is equivalent for the nonnegative
  thresholds the source uses (sqrt is monotone on nonnegatives); where a
  theorem talks about the actual RMS it uses `Real.sqrt` and proves the
  equivalence;
* a file that is missing or unreadable (the `except` branches of the
  source) is modelled as the `none` case of an `Option (List ℚ)` input.
-/

namespace Recorder

/-! ## ActivityDetector — `src/audio/activity_detector.py` -/

/-- Configuration read in `AudioActivityDetector.__init__` (defaults
`volume_threshold = 0.015`, `start_duration = 3.0`,
`end_silence_duration = 12.0`, `min_call_duration = 5.0`). -/
structure DetectorConfig where
  volumeThreshold : ℚ
  startDuration : ℚ
  endSilenceDuration : ℚ
  minCallDuration : ℚ
deriving DecidableEq

/-- The default configuration values of `AudioActivityDetector.__init__`. -/
def defaultConfig : DetectorConfig :=
  { volumeThreshold := 15 / 1000
    startDuration := 3
    endSilenceDuration := 12
    minCallDuration := 5 }

/-- The mutable fields of `AudioActivityDetector`:
`mic_active_start`, `system_active_start`, `last_activity_time`,
`call_start_time` (all initialised to `None`). -/
structure DetectorState where
  micActiveStart : Option ℚ
  systemActiveStart : Option ℚ
  lastActivityTime : Option ℚ
  callStartTime : Option ℚ
deriving DecidableEq

/-- The all-`None` initial state set in `__init__`. -/
def initialState : DetectorState :=
  { micActiveStart := none
    systemActiveStart := none
    lastActivityTime := none
    callStartTime := none }

/-- Sum of squares of a sample buffer (the `np.mean(audio_data**2)`
numerator). -/
def sumSq {α : Type} [LinearOrderedField α] (l : List α) : α :=
  (l.map fun x => x * x).sum

/-- `detect_activity`: empty buffer is inactive, otherwise
`rms > volume_threshold` with `rms = sqrt(mean(audio_data**2))`, embedded
as `mean(audio_data**2) > volume_threshold^2` (equivalent for the
nonnegative thresholds of the source). -/
def detectActivity (thr : ℚ) (audio : List ℚ) : Bool :=
  if audio.length = 0 then false
  else decide (thr * thr < sumSq audio / (audio.length : ℚ))

/-- `update_mic_activity(audio_data)` at wall-clock time `now`: if the frame
is active, set `mic_active_start` to `now` when it was unset and refresh
`last_activity_time`; an inactive frame changes nothing (the source comments
out the immediate reset). Returns `(is_active, new state)`. -/
def updateMicActivity (cfg : DetectorConfig) (s : DetectorState) (now : ℚ)
    (audio : List ℚ) : Bool × DetectorState :=
  if detectActivity cfg.volumeThreshold audio then
    (true,
      { s with
        micActiveStart := match s.micActiveStart with
          | none => some now
          | some t => some t
        lastActivityTime := some now })
  else
    (false, s)

/-- `update_system_activity(audio_data)` at wall-clock time `now`; same
shape as `update_mic_activity` for the system stream. -/
def updateSystemActivity (cfg : DetectorConfig) (s : DetectorState) (now : ℚ)
    (audio : List ℚ) : Bool × DetectorState :=
  if detectActivity cfg.volumeThreshold audio then
    (true,
      { s with
        systemActiveStart := match s.systemActiveStart with
          | none => some now
          | some t => some t
        lastActivityTime := some now })
  else
    (false, s)

/-- The `current_time - active_start` durations computed in
`should_start_recording` (0 when the stream was never active). -/
def activeDuration (start : Option ℚ) (now : ℚ) : ℚ :=
  match start with
  | none => 0
  | some t => now - t

/-- `should_start_recording()` at wall-clock time `now`.  First, if more
than 5 seconds passed since `last_activity_time`, both `active_start`
fields are reset to `None` (this mutates the detector, so the embedding
returns the updated state as well); then the answer is whether the larger
of the two active durations reached `start_duration`. -/
def shouldStartRecording (cfg : DetectorConfig) (s : DetectorState)
    (now : ℚ) : Bool × DetectorState :=
  let s' :=
    match s.lastActivityTime with
    | some last =>
        if 5 < now - last then
          { s with micActiveStart := none, systemActiveStart := none }
        else s
    | none => s
  let micDur := activeDuration s'.micActiveStart now
  let sysDur := activeDuration s'.systemActiveStart now
  (decide (cfg.startDuration ≤ max micDur sysDur), s')

/-- `should_stop_recording()` at wall-clock time `now`: `False` when
`last_activity_time` is unset; otherwise true exactly when the silence
reached `end_silence_duration` and a call is in progress whose elapsed
time reached `min_call_duration`.  The source mutates nothing here, so the
returned state is the input state. -/
def shouldStopRecording (cfg : DetectorConfig) (s : DetectorState)
    (now : ℚ) : Bool × DetectorState :=
  match s.lastActivityTime with
  | none => (false, s)
  | some last =>
      if cfg.endSilenceDuration ≤ now - last then
        match s.callStartTime with
        | some cs => (decide (cfg.minCallDuration ≤ now - cs), s)
        | none => (false, s)
      else (false, s)

/-- `start_call()` at wall-clock time `now`. -/
def startCall (s : DetectorState) (now : ℚ) : DetectorState :=
  { s with callStartTime := some now }

/-- `end_call()` at wall-clock time `now`: when no call is active it
returns `0.0` immediately (leaving every field as it was); otherwise it
returns the elapsed duration and clears all four timers. -/
def endCall (s : DetectorState) (now : ℚ) : ℚ × DetectorState :=
  match s.callStartTime with
  | none => (0, s)
  | some cs => (now - cs, initialState)

/-! ## CircularBuffer — `src/audio/circular_buffer.py`

The buffer is a `collections.deque(maxlen = max_samples)`; `write` extends
it element by element, the deque evicting from the left once it is full
(`maxlen = 0` keeps the deque empty), and `read_all` returns a snapshot of
the contents in chronological order. -/

/-- A single `deque.append` with `maxlen = cap`. -/
def pushSample (cap : ℕ) (buf : List ℚ) (x : ℚ) : List ℚ :=
  if cap = 0 then []
  else if buf.length < cap then buf ++ [x]
  else buf.tail ++ [x]

/-- `CircularBuffer.write(data)`: `deque.extend` appends the samples one at
a time. -/
def bufferWrite (cap : ℕ) (buf : List ℚ) (data : List ℚ) : List ℚ :=
  data.foldl (pushSample cap) buf

/-- `CircularBuffer.read_all()`: snapshot of the contents, oldest first. -/
def readAll (buf : List ℚ) : List ℚ := buf

/-! ## PostProcessor — `src/audio/post_processor.py` -/

/-- The `np.pad(data, (0, max_length - len(data)))` end-padding used by
`_merge_to_stereo`. -/
def padTo {α : Type} [Zero α] (n : ℕ) (l : List α) : List α :=
  l ++ List.replicate (n - l.length) 0

/-- `_merge_to_stereo` (the merge itself, lines 160–185): a `None` input is
a missing/unreadable file, replaced by an all-zero buffer of the other
side's length; both buffers are end-padded to the larger length and
column-stacked into (left = mic, right = system) frames.  Returns `none`
when both inputs are `None` (the early `return None`). -/
def mergeToStereo {α : Type} [Zero α] (micData systemData : Option (List α)) :
    Option (List (α × α)) :=
  match micData, systemData with
  | none, none => none
  | _, _ =>
      let maxLength := max (micData.getD []).length (systemData.getD []).length
      some ((padTo maxLength (micData.getD [])).zip
            (padTo maxLength (systemData.getD [])))

/-- The `k`-th full 1024-sample analysis frame of `_is_audio_silent`
(`audio_data[i*frame_size:(i+1)*frame_size]`). -/
def frameAt {α : Type} (frameSize : ℕ) (audio : List α) (k : ℕ) : List α :=
  (audio.drop (frameSize * k)).take frameSize

/-- One frame of `_is_audio_silent` counting as silent:
`np.sqrt(np.mean(frame**2)) < threshold`, embedded squared. -/
def isSilentFrame {α : Type} [LinearOrderedField α]
    [DecidableRel ((· < ·) : α → α → Prop)] (thr : α) (frame : List α) :
    Bool :=
  decide (sumSq frame / (frame.length : α) < thr * thr)

/-- `_is_audio_silent(audio_file)`: `True` for a missing/unreadable file
(`none`) and for an empty decoded buffer; otherwise the buffer is cut into
full 1024-sample frames, and it is silent when there are no full frames or
when the fraction of silent frames strictly exceeds `silence_ratio`. -/
def isAudioSilent {α : Type} [LinearOrderedField α]
    [DecidableRel ((· < ·) : α → α → Prop)] (thr ratio : α)
    (file : Option (List α)) : Bool :=
  match file with
  | none => true
  | some audioData =>
      if audioData.length = 0 then true
      else
        let frameSize := 1024
        let totalFrames := audioData.length / frameSize
        let silentFrames :=
          (List.range totalFrames).countP fun k =>
            isSilentFrame thr (frameAt frameSize audioData k)
        if totalFrames = 0 then true
        else decide (ratio < (silentFrames : α) / (totalFrames : α))

/-- `_is_single_side_silent`: the session is invalid when either side is
silent. -/
def isSingleSideSilent {α : Type} [LinearOrderedField α]
    [DecidableRel ((· < ·) : α → α → Prop)] (thr ratio : α)
    (micFile systemFile : Option (List α)) : Bool :=
  isAudioSilent thr ratio micFile || isAudioSilent thr ratio systemFile

/-- Outcome of `_process_recording` for one submitted session. -/
inductive ProcessOutcome (α : Type) where
  | tooShort
  | singleSideSilent
  | mergeFailed
  | processed (stereo : List (α × α))
deriving DecidableEq

/-- `_process_recording` (lines 64–94): discard when the duration is below
`min_duration`; discard when either side is silent; otherwise merge (a
failed merge aborts the item).  The duration is the one `_get_audio_duration`
reads from the file header, passed in here as a value. -/
def processRecording {α : Type} [LinearOrderedField α]
    [DecidableRel ((· < ·) : α → α → Prop)] (minDuration thr ratio : α)
    (duration : α) (micFile systemFile : Option (List α)) :
    ProcessOutcome α :=
  if duration < minDuration then .tooShort
  else if isSingleSideSilent thr ratio micFile systemFile then
    .singleSideSilent
  else
    match mergeToStereo micFile systemFile with
    | none => .mergeFailed
    | some st => .processed st

/-! ## RecordingEngine stop path — `src/audio/auto_recorder.py` -/

/-- The `RecordingState` enum of `auto_recorder.py`. -/
inductive RecordingState where
  | idle
  | monitoring
  | recording
  | stopping
deriving DecidableEq

/-- What `_stop_recording` does with the finished session. -/
inductive StopOutcome where
  | notRecording
  | discarded
  | saved
deriving DecidableEq

/-- `_stop_recording` (lines 322–347): a no-op unless currently
`RECORDING`; otherwise obtain `call_duration` from `detector.end_call()`,
discard the session when it is below `min_call_duration` (no file is
written), save it otherwise, and return to `MONITORING` either way.
Returns the new engine state, the updated detector and the outcome with
the reported call duration. -/
def stopRecording (minCallDuration : ℚ) (st : RecordingState)
    (det : DetectorState) (now : ℚ) :
    RecordingState × DetectorState × StopOutcome × ℚ :=
  if st ≠ RecordingState.recording then (st, det, .notRecording, 0)
  else
    let r := endCall det now
    if r.1 < minCallDuration then (.monitoring, r.2, .discarded, r.1)
    else (.monitoring, r.2, .saved, r.1)

/-! ## 16-bit PCM WAV quantization — `_save_audio_file` /
`_merge_to_stereo` write and `_read_audio_file` read -/

/-- The `(x * 32767).astype(np.int16)` write conversion; numpy `astype`
truncates toward zero. -/
def quantizeSample (x : ℚ) : ℤ :=
  if 0 ≤ x then ⌊x * 32767⌋ else ⌈x * 32767⌉

/-- The `np.frombuffer(..., dtype=np.int16) / 32768.0` read conversion of
`_read_audio_file` / `_is_audio_silent`. -/
def dequantizeSample (q : ℤ) : ℚ :=
  (q : ℚ) / 32768

/-- The sample value the stored 16-bit integer represents at the write
scale (the 16-bit-quantized original of `x`). -/
def quantizedValue (x : ℚ) : ℚ :=
  (quantizeSample x : ℚ) / 32767

/-- Writing a sample buffer as 16-bit PCM. -/
def writeWavSamples (l : List ℚ) : List ℤ :=
  l.map quantizeSample

/-- Reading a 16-bit PCM buffer back as floats. -/
def readWavSamples (l : List ℤ) : List ℚ :=
  l.map dequantizeSample

/-! ## Theorems -/

/-- Helper: `should_start_recording` either leaves the detector unchanged
or (exactly when more than 5 s passed since `last_activity_time`) clears
the two `active_start` fields. -/
theorem shouldStartRecording_snd (cfg : DetectorConfig) (s : DetectorState)
    (now : ℚ) :
    (shouldStartRecording cfg s now).2 = s ∨
    ((shouldStartRecording cfg s now).2 =
        { s with micActiveStart := none, systemActiveStart := none } ∧
      ∃ u, s.lastActivityTime = some u ∧ 5 < now - u) := by
  dsimp only [shouldStartRecording]
  split
  next last heq =>
    split_ifs with h
    · exact Or.inr ⟨rfl, last, heq, h⟩
    · exact Or.inl rfl
  next heq => exact Or.inl rfl

/-- Helper: without more than 5 s of trailing silence,
`should_start_recording` compares `start_duration` against the larger
stream activity duration of the unchanged state. -/
theorem shouldStartRecording_no_reset (cfg : DetectorConfig)
    (s : DetectorState) (now : ℚ)
    (h : ∀ u, s.lastActivityTime = some u → now - u ≤ 5) :
    shouldStartRecording cfg s now =
      (decide (cfg.startDuration ≤
        max (activeDuration s.micActiveStart now)
            (activeDuration s.systemActiveStart now)), s) := by
  dsimp only [shouldStartRecording]
  split
  next last heq =>
    split_ifs with h5
    · exact absurd h5 (not_lt.2 (h last heq))
    · rfl
  next heq => rfl

/-- Helper: after more than 5 s of trailing silence,
`should_start_recording` first clears both `active_start` fields, so it
compares `start_duration` against 0. -/
theorem shouldStartRecording_reset (cfg : DetectorConfig)
    (s : DetectorState) (now u : ℚ) (hu : s.lastActivityTime = some u)
    (h5 : 5 < now - u) :
    shouldStartRecording cfg s now =
      (decide (cfg.startDuration ≤ 0),
       { s with micActiveStart := none, systemActiveStart := none }) := by
  dsimp only [shouldStartRecording]
  split
  next last heq =>
    obtain rfl : last = u := by rw [heq] at hu; exact Option.some.inj hu
    simp only [if_pos h5]
    simp [activeDuration]
  next heq => rw [heq] at hu; exact absurd hu (by simp)

/-- Helper: an `activeDuration` bound from a per-timestamp bound. -/
theorem activeDuration_lt (start : Option ℚ) (now d : ℚ) (hpos : 0 < d)
    (h : ∀ t, start = some t → now - t < d) :
    activeDuration start now < d := by
  cases start with
  | none => simpa [activeDuration] using hpos
  | some t => simpa [activeDuration] using h t rfl

/-- C1: `should_start_recording()` is false while every set `active_since`
is younger than `start_duration` (in particular before `start_duration`
has elapsed since the earlier of the two), and true at or past the
threshold on any one stream alone (absent the trailing reset); a stream's
`active_since`, once set, is not cleared by a below-threshold frame
(inactive updates are no-ops) but only by `should_start_recording` after
more than 5 seconds with no activity on either stream. -/
theorem shouldStartRecording_spec (cfg : DetectorConfig)
    (s : DetectorState) (now : ℚ) :
    (∀ audio, detectActivity cfg.volumeThreshold audio = false →
      updateMicActivity cfg s now audio = (false, s) ∧
      updateSystemActivity cfg s now audio = (false, s)) ∧
    (0 < cfg.startDuration →
      (∀ t, s.micActiveStart = some t → now - t < cfg.startDuration) →
      (∀ t, s.systemActiveStart = some t → now - t < cfg.startDuration) →
      (shouldStartRecording cfg s now).1 = false) ∧
    (∀ t, s.micActiveStart = some t → s.systemActiveStart = none →
      cfg.startDuration ≤ now - t →
      (∀ u, s.lastActivityTime = some u → now - u ≤ 5) →
      (shouldStartRecording cfg s now).1 = true) ∧
    (∀ t, s.micActiveStart = none → s.systemActiveStart = some t →
      cfg.startDuration ≤ now - t →
      (∀ u, s.lastActivityTime = some u → now - u ≤ 5) →
      (shouldStartRecording cfg s now).1 = true) ∧
    ((∀ u, s.lastActivityTime = some u → now - u ≤ 5) →
      (shouldStartRecording cfg s now).2 = s) ∧
    (∀ u, s.lastActivityTime = some u → 5 < now - u →
      (shouldStartRecording cfg s now).2 =
        { s with micActiveStart := none, systemActiveStart := none }) := by
  refine ⟨?_, ?_, ?_, ?_, ?_, ?_⟩
  · intro audio h
    constructor <;> simp [updateMicActivity, updateSystemActivity, h]
  · intro hpos hmic hsys
    rcases hsil : s.lastActivityTime with _ | u
    · rw [shouldStartRecording_no_reset cfg s now
        (fun u hu => by rw [hsil] at hu; exact absurd hu (by simp))]
      simp only [decide_eq_false_iff_not, not_le]
      exact max_lt (activeDuration_lt _ _ _ hpos hmic)
        (activeDuration_lt _ _ _ hpos hsys)
    · rcases le_or_lt (now - u) 5 with h5 | h5
      · rw [shouldStartRecording_no_reset cfg s now
          (fun v hv => by
            rw [hsil] at hv; obtain rfl := Option.some.inj hv; exact h5)]
        simp only [decide_eq_false_iff_not, not_le]
        exact max_lt (activeDuration_lt _ _ _ hpos hmic)
          (activeDuration_lt _ _ _ hpos hsys)
      · rw [shouldStartRecording_reset cfg s now u hsil h5]
        simp only [decide_eq_false_iff_not, not_le]
        exact hpos
  · intro t hmic hsys hth hsil
    rw [shouldStartRecording_no_reset cfg s now hsil]
    simp only [decide_eq_true_eq]
    rw [hmic, hsys]
    exact le_max_of_le_left (by simpa [activeDuration] using hth)
  · intro t hmic hsys hth hsil
    rw [shouldStartRecording_no_reset cfg s now hsil]
    simp only [decide_eq_true_eq]
    rw [hmic, hsys]
    exact le_max_of_le_right (by simpa [activeDuration] using hth)
  · intro hsil
    rw [shouldStartRecording_no_reset cfg s now hsil]
  · intro u hu h5
    rw [shouldStartRecording_reset cfg s now u hu h5]

/-- Witness for C1 with the defaults (`start_duration = 3.0`): a
below-threshold frame is a no-op; with the mic stream active since 0 the
predicate is false at 2.9 s and true at 3.0 s. -/
theorem shouldStartRecording_spec_witness :
    updateMicActivity defaultConfig ⟨some 0, none, some 2, none⟩ 3
      [0, 0] = (false, ⟨some 0, none, some 2, none⟩) ∧
    (shouldStartRecording defaultConfig ⟨some 0, none, some 2, none⟩
      (29/10)).1 = false ∧
    (shouldStartRecording defaultConfig ⟨some 0, none, some 2, none⟩
      3).1 = true := by
  refine ⟨?_, ?_, ?_⟩
  · exact ((shouldStartRecording_spec defaultConfig
      ⟨some 0, none, some 2, none⟩ 3).1 [0, 0]
      (by simp [detectActivity, sumSq]; norm_num [defaultConfig])).1
  · exact (shouldStartRecording_spec defaultConfig
      ⟨some 0, none, some 2, none⟩ (29/10)).2.1
      (by norm_num [defaultConfig])
      (fun t ht => by
        obtain rfl := Option.some.inj ht; norm_num [defaultConfig])
      (fun t ht => by simp at ht)
  · exact (shouldStartRecording_spec defaultConfig
      ⟨some 0, none, some 2, none⟩ 3).2.2.1 0 rfl rfl
      (by norm_num [defaultConfig])
      (fun u hu => by obtain rfl := Option.some.inj hu; norm_num)

/-- C2: `should_stop_recording()` is true exactly when the silence since
`last_activity_time` reached `end_silence_duration` and a call is in
progress whose elapsed duration reached `min_call_duration`; in particular
it is false whenever the silence is still below `end_silence_duration`
(even if the call is long enough) and false whenever `last_activity_time`
is unset. -/
theorem shouldStopRecording_spec (cfg : DetectorConfig) (s : DetectorState)
    (now : ℚ) :
    ((shouldStopRecording cfg s now).1 = true ↔
      ∃ last cs, s.lastActivityTime = some last ∧ s.callStartTime = some cs ∧
        cfg.endSilenceDuration ≤ now - last ∧
        cfg.minCallDuration ≤ now - cs) ∧
    (s.lastActivityTime = none → (shouldStopRecording cfg s now).1 = false) ∧
    (∀ last, s.lastActivityTime = some last →
      now - last < cfg.endSilenceDuration →
      (shouldStopRecording cfg s now).1 = false) := by
  refine ⟨?_, ?_, ?_⟩
  · unfold shouldStopRecording
    split
    next heq => simp [heq]
    next last heq =>
      split_ifs with hsil
      · split
        next cs heq2 => simp [heq, heq2, hsil]
        next heq2 => simp [heq, heq2]
      · simp [heq, hsil]
  · intro h
    simp [shouldStopRecording, h]
  · intro last hl hlt
    simp [shouldStopRecording, hl, (not_le.2 hlt : ¬ _)]

/-- Witness for C2 with the spec's test values (`end_silence_duration =
12.0`, `min_call_duration = 5.0`): 4 s of silence with a 6 s call gives
false, 12 s of silence with a 14 s call gives true. -/
theorem shouldStopRecording_spec_witness :
    (shouldStopRecording defaultConfig ⟨none, none, some 0, some (-2)⟩
      4).1 = false ∧
    (shouldStopRecording defaultConfig ⟨none, none, some 0, some (-2)⟩
      12).1 = true := by
  constructor
  · exact (shouldStopRecording_spec defaultConfig ⟨none, none, some 0,
      some (-2)⟩ 4).2.2 0 rfl (by norm_num [defaultConfig])
  · exact (shouldStopRecording_spec defaultConfig ⟨none, none, some 0,
      some (-2)⟩ 12).1.2 ⟨0, -2, rfl, rfl, by norm_num [defaultConfig],
      by norm_num [defaultConfig]⟩

/-- C6 counterexample: in a state where no call is active but the mic
activity timer is set, `end_call()` returns `0.0` without clearing the
per-stream activity timers (the early `return 0.0` skips the resets), so
the claim that it clears them in every state is false. -/
theorem endCall_counterexample :
    (endCall ⟨some 1, none, some 1, none⟩ 2).1 = 0 ∧
    (endCall ⟨some 1, none, some 1, none⟩ 2).2.micActiveStart ≠ none := by
  refine ⟨rfl, ?_⟩
  simp [endCall]

/-- C6 (amended): when a call is active, `end_call()` returns the elapsed
duration and clears `call_start_time` and all per-stream activity timers;
when no call is active it returns `0.0` and leaves the whole state
(including the per-stream timers) unchanged. -/
theorem endCall_spec (s : DetectorState) (now cs : ℚ) :
    (s.callStartTime = some cs → endCall s now = (now - cs, initialState)) ∧
    (s.callStartTime = none → endCall s now = (0, s)) := by
  unfold endCall
  exact ⟨fun h => by rw [h], fun h => by rw [h]⟩

/-- Witness for C6 (amended): an active call started at 3 ended at 10
yields duration 7 and the all-`None` state; with no active call the state
is untouched. -/
theorem endCall_spec_witness :
    endCall ⟨some 1, none, some 1, some 3⟩ 10 = (7, initialState) ∧
    endCall ⟨some 1, none, some 1, none⟩ 2 =
      (0, ⟨some 1, none, some 1, none⟩) := by
  constructor
  · have h := (endCall_spec ⟨some 1, none, some 1, some 3⟩ 10 3).1 rfl
    rw [h]; norm_num
  · exact (endCall_spec ⟨some 1, none, some 1, none⟩ 2 0).2 rfl

/-- C7 counterexample: `should_start_recording()` is not pure — with more
than 5 seconds of trailing silence it clears `mic_active_start` and
`system_active_start`, so evaluating it changes the detector state. -/
theorem shouldStartRecording_impure_counterexample :
    (shouldStartRecording defaultConfig ⟨some 0, none, some 0, none⟩ 6).2 ≠
      ⟨some 0, none, some 0, none⟩ := by
  norm_num [shouldStartRecording, defaultConfig]
  simp

/-- C7 (amended): `should_stop_recording()` leaves every detector field
unchanged; `should_start_recording()` never touches `last_activity_time`
or `call_start_time`, and leaves the whole state unchanged whenever the
trailing silence is at most 5 seconds (it mutates the two `active_start`
fields only on the >5 s trailing reset). -/
theorem predicates_state_effect (cfg : DetectorConfig) (s : DetectorState)
    (now : ℚ) :
    (shouldStopRecording cfg s now).2 = s ∧
    (shouldStartRecording cfg s now).2.lastActivityTime =
      s.lastActivityTime ∧
    (shouldStartRecording cfg s now).2.callStartTime = s.callStartTime ∧
    ((∀ u, s.lastActivityTime = some u → now - u ≤ 5) →
      (shouldStartRecording cfg s now).2 = s) := by
  have hsplit := shouldStartRecording_snd cfg s now
  refine ⟨?_, ?_, ?_, ?_⟩
  · unfold shouldStopRecording
    split
    next heq => rfl
    next last heq =>
      split_ifs
      · split
        next cs heq2 => rfl
        next heq2 => rfl
      · rfl
  · rcases hsplit with h | ⟨h, _⟩ <;> rw [h]
  · rcases hsplit with h | ⟨h, _⟩ <;> rw [h]
  · intro hle
    rcases hsplit with h | ⟨h, u, hu, h5⟩
    · exact h
    · exact absurd (hle u hu) (not_le.2 h5)

/-- Witness for C7 (amended) at a concrete state with 3 s of trailing
silence: neither predicate changes the state. -/
theorem predicates_state_effect_witness :
    (shouldStopRecording defaultConfig ⟨some 0, none, some 2, some 0⟩
      5).2 = ⟨some 0, none, some 2, some 0⟩ ∧
    (shouldStartRecording defaultConfig ⟨some 0, none, some 2, some 0⟩
      5).2 = ⟨some 0, none, some 2, some 0⟩ := by
  constructor
  · exact (predicates_state_effect defaultConfig ⟨some 0, none, some 2,
      some 0⟩ 5).1
  · refine (predicates_state_effect defaultConfig ⟨some 0, none, some 2,
      some 0⟩ 5).2.2.2 ?_
    intro u hu
    obtain rfl := Option.some.inj hu
    norm_num

/-- C8: when the engine is `RECORDING` and a stop fires, `_stop_recording`
obtains `call_duration` from `detector.end_call()` (which also updates the
detector); a duration below `min_call_duration` discards the session with
no save, a sufficient one saves it, and the engine returns to `MONITORING`
in both cases. -/
theorem stopRecording_spec (minCall : ℚ) (det : DetectorState) (now : ℚ) :
    (stopRecording minCall .recording det now).2.2.2 =
      (endCall det now).1 ∧
    (stopRecording minCall .recording det now).2.1 = (endCall det now).2 ∧
    ((endCall det now).1 < minCall →
      (stopRecording minCall .recording det now).2.2.1 = .discarded ∧
      (stopRecording minCall .recording det now).1 = .monitoring) ∧
    (¬ (endCall det now).1 < minCall →
      (stopRecording minCall .recording det now).2.2.1 = .saved ∧
      (stopRecording minCall .recording det now).1 = .monitoring) := by
  unfold stopRecording
  simp only [ne_eq, not_true_eq_false, if_false, reduceIte]
  split_ifs with h <;>
    exact ⟨rfl, rfl, fun h2 => by simp_all, fun h2 => by simp_all⟩

/-- Witness for C8: a 3 s call (below the 5 s minimum) is discarded, a
20 s call is saved; both end in `MONITORING` with the detector cleared. -/
theorem stopRecording_spec_witness :
    (stopRecording 5 .recording ⟨some 0, none, some 9, some 7⟩ 10).2.2.1 =
      StopOutcome.discarded ∧
    (stopRecording 5 .recording ⟨some 0, none, some 9, some 7⟩ 10).1 =
      RecordingState.monitoring ∧
    (stopRecording 5 .recording ⟨some 0, none, some 19, some 0⟩ 20).2.2.1 =
      StopOutcome.saved := by
  refine ⟨?_, ?_, ?_⟩
  · exact ((stopRecording_spec 5 ⟨some 0, none, some 9, some 7⟩ 10).2.2.1
      (by norm_num [endCall])).1
  · exact ((stopRecording_spec 5 ⟨some 0, none, some 9, some 7⟩ 10).2.2.1
      (by norm_num [endCall])).2
  · exact ((stopRecording_spec 5 ⟨some 0, none, some 19, some 0⟩ 20).2.2.2
      (by norm_num [endCall])).1

/-- Helper: one deque append keeps the length within the capacity. -/
theorem pushSample_length_le (cap : ℕ) (buf : List ℚ) (x : ℚ)
    (h : buf.length ≤ cap) : (pushSample cap buf x).length ≤ cap := by
  unfold pushSample
  split_ifs with h0 hlt
  · simp
  · rw [List.length_append, List.length_singleton]; omega
  · rw [List.length_append, List.length_singleton, List.length_tail]
    omega

/-- Helper: one deque append is dropping the overflow from the front. -/
theorem pushSample_eq_drop (cap : ℕ) (buf : List ℚ) (x : ℚ)
    (h : buf.length ≤ cap) :
    pushSample cap buf x = (buf ++ [x]).drop (buf.length + 1 - cap) := by
  unfold pushSample
  split_ifs with h0 hlt
  · exact (List.drop_eq_nil_of_le (by simp [h0])).symm
  · rw [Nat.sub_eq_zero_of_le (by omega), List.drop_zero]
  · rw [show buf.length + 1 - cap = 1 by omega,
      List.drop_append_of_le_length (by omega), List.drop_one]

/-- Helper: the buffer length never exceeds the capacity. -/
theorem bufferWrite_length_le (cap : ℕ) (buf data : List ℚ)
    (h : buf.length ≤ cap) : (bufferWrite cap buf data).length ≤ cap := by
  induction data generalizing buf with
  | nil => exact h
  | cons x d ih => exact ih _ (pushSample_length_le cap buf x h)

/-- Helper: a write keeps exactly the last `cap` samples of the
concatenation of old contents and new data. -/
theorem bufferWrite_eq_drop (cap : ℕ) (buf data : List ℚ)
    (h : buf.length ≤ cap) :
    bufferWrite cap buf data =
      (buf ++ data).drop (buf.length + data.length - cap) := by
  induction data generalizing buf with
  | nil =>
    simp [bufferWrite, Nat.sub_eq_zero_of_le h]
  | cons x d ih =>
    have hp := pushSample_length_le cap buf x h
    have hk : buf.length + 1 - cap ≤ (buf ++ [x]).length := by
      rw [List.length_append, List.length_singleton]; omega
    calc bufferWrite cap buf (x :: d)
        = bufferWrite cap (pushSample cap buf x) d := rfl
      _ = ((pushSample cap buf x) ++ d).drop
            ((pushSample cap buf x).length + d.length - cap) := ih _ hp
      _ = (buf ++ x :: d).drop (buf.length + (x :: d).length - cap) := by
          rw [pushSample_eq_drop cap buf x h, List.length_drop,
            ← List.drop_append_of_le_length hk, List.drop_drop]
          congr 1
          · rw [List.length_append, List.length_singleton,
              List.length_cons]
            omega
          · simp

/-- C3: for every capacity and every sequence of writes starting from the
empty buffer, the buffer length never exceeds the capacity, and once the
total number of samples written exceeds the capacity, `read_all()` returns
exactly the most recent `cap` samples in chronological order (FIFO
eviction of the oldest). -/
theorem circularBuffer_spec (cap : ℕ) (writes : List (List ℚ)) :
    (∀ n, ((writes.take n).foldl (bufferWrite cap) []).length ≤ cap) ∧
    (cap < writes.flatten.length →
      readAll (writes.foldl (bufferWrite cap) []) =
        writes.flatten.drop (writes.flatten.length - cap) ∧
      (readAll (writes.foldl (bufferWrite cap) [])).length = cap) := by
  have key : ∀ ws : List (List ℚ),
      ws.foldl (bufferWrite cap) [] = bufferWrite cap [] ws.flatten := by
    intro ws
    show ws.foldl (bufferWrite cap) [] = ws.flatten.foldl (pushSample cap) []
    rw [List.foldl_flatten]
    rfl
  constructor
  · intro n
    rw [key]
    exact bufferWrite_length_le cap [] _ (by simp)
  · intro hlt
    have hdrop : readAll (writes.foldl (bufferWrite cap) []) =
        writes.flatten.drop (writes.flatten.length - cap) := by
      rw [readAll, key, bufferWrite_eq_drop cap [] _ (by simp)]
      simp
    refine ⟨hdrop, ?_⟩
    rw [hdrop, List.length_drop]
    omega

/-- Witness for C3: capacity 3, writes `[1,2]` then `[3,4,5]` (5 samples
in total): the buffer holds exactly the last 3 samples `[3,4,5]`. -/
theorem circularBuffer_spec_witness :
    readAll (([[1, 2], [3, 4, 5]] : List (List ℚ)).foldl
      (bufferWrite 3) []) = [3, 4, 5] ∧
    (readAll (([[1, 2], [3, 4, 5]] : List (List ℚ)).foldl
      (bufferWrite 3) [])).length = 3 := by
  have h := (circularBuffer_spec 3 [[1, 2], [3, 4, 5]]).2 (by simp)
  refine ⟨?_, h.2⟩
  rw [h.1]
  simp

/-- Helper: padding to `n ≥ length` yields length `n`. -/
theorem padTo_length {α : Type} [Zero α] (n : ℕ) (l : List α)
    (h : l.length ≤ n) : (padTo n l).length = n := by
  simp only [padTo, List.length_append, List.length_replicate]
  omega

/-- Helper: an index below `n` reads the original sample inside the buffer
and `0` in the padding. -/
theorem padTo_getElem? {α : Type} [Zero α] (n : ℕ) (l : List α) (i : ℕ)
    (hi : i < n) : (padTo n l)[i]? = some (l[i]?.getD 0) := by
  unfold padTo
  rcases lt_or_le i l.length with hlt | hge
  · rw [List.getElem?_append, if_pos hlt, List.getElem?_eq_getElem hlt]
    rfl
  · rw [List.getElem?_append, if_neg (not_lt.2 hge),
      List.getElem?_replicate, List.getElem?_eq_none hge]
    rw [if_pos (by omega)]
    rfl

/-- C4: merging two mono buffers produces a stereo buffer of exactly
`max(len_a, len_b)` frames whose left channel holds the mic samples and
right channel the system samples, the shorter buffer zero-padded at the
end (reading past a buffer's end gives `0`) and never truncated. -/
theorem mergeToStereo_spec (a b : List ℚ) :
    ∃ st, mergeToStereo (some a) (some b) = some st ∧
      st.length = max a.length b.length ∧
      ∀ i, i < max a.length b.length →
        st[i]? = some (a[i]?.getD 0, b[i]?.getD 0) := by
  refine ⟨(padTo (max a.length b.length) a).zip
    (padTo (max a.length b.length) b), rfl, ?_, ?_⟩
  · rw [List.length_zip, padTo_length _ _ (le_max_left _ _),
      padTo_length _ _ (le_max_right _ _), min_self]
  · intro i hi
    exact List.getElem?_zip_eq_some.mpr
      ⟨padTo_getElem? _ _ _ hi, padTo_getElem? _ _ _ hi⟩

/-- Witness for C4 with the spec's example: a 1000-sample mic buffer and a
700-sample system buffer merge into 1000 stereo frames, and frame 850
(in the padded range 700–999) has right channel 0. -/
theorem mergeToStereo_spec_witness :
    ∃ st, mergeToStereo (some (List.replicate 1000 (1 : ℚ)))
        (some (List.replicate 700 (1/2 : ℚ))) = some st ∧
      st.length = 1000 ∧ st[850]? = some (1, 0) := by
  obtain ⟨st, h1, h2, h3⟩ := mergeToStereo_spec
    (List.replicate 1000 (1 : ℚ)) (List.replicate 700 (1/2 : ℚ))
  rw [List.length_replicate, List.length_replicate] at h2
  refine ⟨st, h1, by rw [h2]; norm_num, ?_⟩
  have h := h3 850 (by
    rw [List.length_replicate, List.length_replicate]; norm_num)
  rw [h, List.getElem?_replicate, List.getElem?_replicate,
    if_pos (by norm_num), if_neg (by norm_num)]
  rfl

/-- Helper: for `|x| ≤ 1` the stored 16-bit integer lies in
`[-32767, 32767]` (no wrap-around in `astype(np.int16)`). -/
theorem quantizeSample_bounds (x : ℚ) (h1 : -1 ≤ x) (h2 : x ≤ 1) :
    -32767 ≤ quantizeSample x ∧ quantizeSample x ≤ 32767 := by
  unfold quantizeSample
  split_ifs with hx
  · constructor
    · have h0 : (0:ℤ) ≤ ⌊x * 32767⌋ := Int.floor_nonneg.mpr (by positivity)
      omega
    · calc ⌊x * 32767⌋ ≤ ⌊(32767 : ℚ)⌋ :=
          Int.floor_le_floor (by nlinarith)
        _ = 32767 := by norm_num
  · constructor
    · calc (-32767 : ℤ) = ⌈((-32767 : ℤ) : ℚ)⌉ := (Int.ceil_intCast _).symm
        _ ≤ ⌈x * 32767⌉ := Int.ceil_le_ceil (by push_cast; nlinarith)
    · have h0 : ⌈x * 32767⌉ ≤ 0 := by
        refine Int.ceil_le.mpr ?_
        push_cast
        nlinarith [not_le.1 hx]
      omega

/-- C9: writing a buffer of samples in `[-1, 1]` as 16-bit PCM
(`(x * 32767).astype(np.int16)`, truncation toward zero) and reading it
back (`int16 / 32768.0`) yields, for every sample, a value within
±1/32768 of the 16-bit-quantized original (the value the stored integer
represents at the write scale 32767). -/
theorem wavRoundTrip_spec (l : List ℚ) (hl : ∀ x ∈ l, -1 ≤ x ∧ x ≤ 1) :
    readWavSamples (writeWavSamples l) =
      l.map (fun x => dequantizeSample (quantizeSample x)) ∧
    ∀ x ∈ l, |dequantizeSample (quantizeSample x) - quantizedValue x| ≤
      1 / 32768 := by
  constructor
  · rw [readWavSamples, writeWavSamples, List.map_map]
    rfl
  · intro x hx
    obtain ⟨h1, h2⟩ := hl x hx
    obtain ⟨hb1, hb2⟩ := quantizeSample_bounds x h1 h2
    unfold dequantizeSample quantizedValue
    have habs : |(quantizeSample x : ℚ)| ≤ 32767 := by
      rw [abs_le]
      constructor <;> exact_mod_cast by assumption
    have hring : (quantizeSample x : ℚ) / 32768 -
        (quantizeSample x : ℚ) / 32767 =
        -((quantizeSample x : ℚ) / (32767 * 32768)) := by ring
    rw [hring, abs_neg, abs_div,
      abs_of_pos (by norm_num : (0:ℚ) < 32767 * 32768),
      div_le_iff₀ (by norm_num : (0:ℚ) < 32767 * 32768)]
    calc |(quantizeSample x : ℚ)| ≤ 32767 := habs
      _ = 1 / 32768 * (32767 * 32768) := by norm_num

/-- Witness for C9 at `x = 65533/65534` (the stored integer is 32766, the
worst-case scale mismatch stays within the bound). -/
theorem wavRoundTrip_spec_witness :
    readWavSamples (writeWavSamples [(65533/65534 : ℚ)]) =
      [32766/32768] ∧
    |dequantizeSample (quantizeSample ((65533:ℚ)/65534)) -
      quantizedValue ((65533:ℚ)/65534)| ≤ 1 / 32768 := by
  have h := wavRoundTrip_spec [(65533/65534 : ℚ)]
    (by intro x hx; rw [List.mem_singleton] at hx; subst hx; norm_num)
  constructor
  · rw [h.1]
    norm_num [dequantizeSample, quantizeSample]
  · exact h.2 _ (List.mem_singleton.mpr rfl)

/-- Helper: a buffer with fewer than 1024 samples has zero full frames,
and `_is_audio_silent` returns `True` for it. -/
theorem isAudioSilent_short (thr ratio : ℚ) (data : List ℚ)
    (h : data.length < 1024) :
    isAudioSilent thr ratio (some data) = true := by
  simp [isAudioSilent, Nat.div_eq_of_lt h]

/-- C10: `_is_audio_silent` is total at its edge cases — a missing or
unreadable file, an empty decoded buffer, and a buffer with fewer than
1024 samples (zero complete frames) are all classified silent with no
division by zero, and `_process_recording` then discards any sufficiently
long session with such a stream at the single-side-silence check. -/
theorem isAudioSilent_edge_cases :
    (∀ thr ratio : ℚ, isAudioSilent thr ratio none = true) ∧
    (∀ thr ratio : ℚ, isAudioSilent thr ratio (some []) = true) ∧
    (∀ (thr ratio : ℚ) (data : List ℚ), data.length < 1024 →
      isAudioSilent thr ratio (some data) = true) ∧
    (∀ (minDur thr ratio dur : ℚ) (mic sys : Option (List ℚ)),
      ¬ dur < minDur →
      (mic = none ∨ ∃ d, mic = some d ∧ d.length < 1024) →
      processRecording minDur thr ratio dur mic sys =
        ProcessOutcome.singleSideSilent) := by
  refine ⟨fun thr ratio => rfl, fun thr ratio => by simp [isAudioSilent],
    fun thr ratio data h => isAudioSilent_short thr ratio data h, ?_⟩
  intro minDur thr ratio dur mic sys hdur hmic
  have hsil : isAudioSilent thr ratio mic = true := by
    rcases hmic with rfl | ⟨d, rfl, hd⟩
    · rfl
    · exact isAudioSilent_short thr ratio d hd
  unfold processRecording
  rw [if_neg hdur]
  simp [isSingleSideSilent, hsil]

/-- Witness for C10: a 3-sample nonzero buffer is classified silent, and a
10-second-long session whose mic side is that buffer is discarded as
single-side silent. -/
theorem isAudioSilent_edge_cases_witness :
    isAudioSilent (1/1000 : ℚ) (95/100) (some [1, 1, 1]) = true ∧
    processRecording (5 : ℚ) (1/1000) (95/100) 10 (some [1, 1, 1])
      (some (List.replicate 2048 1)) =
      ProcessOutcome.singleSideSilent := by
  constructor
  · exact isAudioSilent_edge_cases.2.2.1 (1/1000) (95/100) [1, 1, 1]
      (by norm_num)
  · exact isAudioSilent_edge_cases.2.2.2 5 (1/1000) (95/100) 10
      (some [1, 1, 1]) (some (List.replicate 2048 1)) (by norm_num)
      (Or.inr ⟨[1, 1, 1], rfl, by norm_num⟩)

/-- Helper: the sum of squares of an all-zero buffer is 0. -/
theorem sumSq_eq_zero {α : Type} [LinearOrderedField α] {l : List α}
    (h : ∀ x ∈ l, x = 0) : sumSq l = 0 := by
  unfold sumSq
  apply List.sum_eq_zero
  intro y hy
  obtain ⟨x, hx, rfl⟩ := List.mem_map.1 hy
  rw [h x hx]
  ring

/-- Helper: each square is at most the sum of squares. -/
theorem sq_le_sumSq {α : Type} [LinearOrderedField α] {l : List α} {x : α}
    (hx : x ∈ l) : x * x ≤ sumSq l := by
  unfold sumSq
  induction l with
  | nil => cases hx
  | cons a t ih =>
    rw [List.map_cons, List.sum_cons]
    rcases List.mem_cons.1 hx with rfl | hx2
    · have h0 : (0:α) ≤ (t.map fun y => y * y).sum := by
        apply List.sum_nonneg
        intro y hy
        obtain ⟨z, _, rfl⟩ := List.mem_map.1 hy
        exact mul_self_nonneg z
      linarith
    · have := ih hx2
      nlinarith [mul_self_nonneg a]

/-- Helper: a frame that ends within the buffer has the full frame size. -/
theorem frameAt_length {α : Type} (fs : ℕ) (audio : List α) (k : ℕ)
    (h : fs * (k + 1) ≤ audio.length) : (frameAt fs audio k).length = fs := by
  unfold frameAt
  rw [List.length_take, List.length_drop]
  rw [Nat.mul_succ] at h
  exact Nat.min_eq_left (by omega)

/-- Helper: the sample at offset `j` of frame `k` of a buffer generated
from indices is the generator at index `fs * k + j`. -/
theorem frameAt_map_range_mem (f : ℕ → ℝ) (N fs k j : ℕ) (hj : j < fs)
    (hN : fs * k + j < N) :
    f (fs * k + j) ∈ frameAt fs ((List.range N).map f) k := by
  unfold frameAt
  have h1 : j < ((((List.range N).map f).drop (fs * k)).take fs).length := by
    rw [List.length_take, List.length_drop, List.length_map,
      List.length_range]
    exact lt_min_iff.2 ⟨hj, by omega⟩
  have h2 : ((((List.range N).map f).drop (fs * k)).take fs)[j] =
      f (fs * k + j) := by
    rw [List.getElem_take, List.getElem_drop, List.getElem_map,
      List.getElem_range]
  rw [← h2]
  exact List.getElem_mem h1

/-- Helper: on a nonempty buffer with at least one full frame,
`_is_audio_silent` is the silent-frame-ratio comparison. -/
theorem isAudioSilent_eval {α : Type} [LinearOrderedField α]
    [DecidableRel ((· < ·) : α → α → Prop)] (thr ratio : α) (data : List α)
    (h0 : data.length ≠ 0) (ht : data.length / 1024 ≠ 0) :
    isAudioSilent thr ratio (some data) =
      decide (ratio < (((List.range (data.length / 1024)).countP fun k =>
        isSilentFrame thr (frameAt 1024 data k)) : α) /
        ((data.length / 1024 : ℕ) : α)) := by
  unfold isAudioSilent
  dsimp only
  rw [if_neg h0, if_neg ht]

/-- Helper: an all-zero buffer of any length is classified silent at the
default threshold and ratio. -/
theorem isAudioSilent_replicate_zero (n : ℕ) :
    isAudioSilent (1/1000 : ℚ) (95/100)
      (some (List.replicate n (0:ℚ))) = true := by
  rcases Nat.lt_or_ge n 1024 with hlt | hge
  · exact isAudioSilent_short _ _ _ (by simpa using hlt)
  · have h0 : (List.replicate n (0:ℚ)).length ≠ 0 := by
      rw [List.length_replicate]; omega
    have ht : (List.replicate n (0:ℚ)).length / 1024 ≠ 0 := by
      rw [List.length_replicate]
      have := Nat.one_le_div_iff (by norm_num : 0 < 1024) |>.2 hge
      omega
    rw [isAudioSilent_eval _ _ _ h0 ht]
    have hall : ∀ k ∈ List.range ((List.replicate n (0:ℚ)).length / 1024),
        isSilentFrame (1/1000 : ℚ) (frameAt 1024 (List.replicate n 0) k)
          = true := by
      intro k _
      unfold isSilentFrame
      have hz : sumSq (frameAt 1024 (List.replicate n (0:ℚ)) k) = 0 := by
        refine sumSq_eq_zero ?_
        intro x hx
        unfold frameAt at hx
        exact List.eq_of_mem_replicate
          (List.mem_of_mem_drop (List.mem_of_mem_take hx))
      rw [hz, zero_div, decide_eq_true_eq]
      norm_num
    rw [List.countP_eq_length.2 hall, List.length_range,
      div_self (by exact_mod_cast ht), decide_eq_true_eq]
    norm_num

/-- Helper: a long-enough session with a silent side is discarded at the
single-side-silence step of `_process_recording`. -/
theorem processRecording_silent_discard (minDur thr ratio dur : ℚ)
    (mic sys : Option (List ℚ)) (hdur : ¬ dur < minDur)
    (hsil : (isAudioSilent thr ratio mic ||
      isAudioSilent thr ratio sys) = true) :
    processRecording minDur thr ratio dur mic sys =
      ProcessOutcome.singleSideSilent := by
  unfold processRecording
  rw [if_neg hdur]
  simp [isSingleSideSilent, hsil]

set_option maxRecDepth 10000

/-- Helper: every one of the 430 frames of the 10-second 1 kHz test
buffer contains an index whose phase lands in the high-amplitude band
(checked by evaluation: `20 * i mod 882` hits `[74, 367]` within every
1024-sample window). -/
theorem sine_hit_check :
    ((List.range 430).all fun k => (List.range 1024).any fun j =>
      decide (74 ≤ 20 * (1024 * k + j) % 882) &&
      decide (20 * (1024 * k + j) % 882 ≤ 367)) = true := by rfl

/-- Helper: the hit extracted as an existence statement. -/
theorem sine_hit (k : ℕ) (hk : k < 430) :
    ∃ j, j < 1024 ∧ 74 ≤ 20 * (1024 * k + j) % 882 ∧
      20 * (1024 * k + j) % 882 ≤ 367 := by
  have h := sine_hit_check
  rw [List.all_eq_true] at h
  have h2 := h k (List.mem_range.2 hk)
  rw [List.any_eq_true] at h2
  obtain ⟨j, hj, hcond⟩ := h2
  rw [Bool.and_eq_true, decide_eq_true_eq, decide_eq_true_eq] at hcond
  exact ⟨j, List.mem_range.1 hj, hcond.1, hcond.2⟩

/-- Helper: in the band `t ∈ [74, 367]` the phase `π t / 441` lies in
`[π/6, 5π/6]`, where the sine is at least 1/2. -/
theorem sin_ge_half (t : ℕ) (h1 : 74 ≤ t) (h2 : t ≤ 367) :
    (1/2 : ℝ) ≤ Real.sin (Real.pi * t / 441) := by
  have hpi := Real.pi_pos
  have ht1 : (74:ℝ) ≤ (t:ℝ) := by exact_mod_cast h1
  have ht2 : (t:ℝ) ≤ 367 := by exact_mod_cast h2
  have hc1 : Real.pi * 74 ≤ Real.pi * t :=
    mul_le_mul_of_nonneg_left ht1 (le_of_lt hpi)
  have hc2 : Real.pi * t ≤ Real.pi * 367 :=
    mul_le_mul_of_nonneg_left ht2 (le_of_lt hpi)
  have habs : |Real.pi / 2 - Real.pi * t / 441| ≤ Real.pi / 3 := by
    rw [abs_le]
    constructor
    · linarith
    · linarith
  calc (1/2 : ℝ) = Real.cos (Real.pi / 3) := Real.cos_pi_div_three.symm
    _ ≤ Real.cos |Real.pi / 2 - Real.pi * t / 441| :=
        Real.cos_le_cos_of_nonneg_of_le_pi (abs_nonneg _) (by linarith)
          habs
    _ = Real.cos (Real.pi / 2 - Real.pi * t / 441) := Real.cos_abs _
    _ = Real.sin (Real.pi * t / 441) := Real.cos_pi_div_two_sub _

/-- Helper: the 1 kHz phase at 44100 Hz reduces modulo the period:
`sin(2π·1000·i/44100) = sin(π·(20 i mod 882)/441)`. -/
theorem sine_arg_reduction (i : ℕ) :
    Real.sin (2 * Real.pi * 1000 * i / 44100) =
      Real.sin (Real.pi * ((20 * i % 882 : ℕ) : ℝ) / 441) := by
  have hdm : 882 * (20 * i / 882) + 20 * i % 882 = 20 * i :=
    Nat.div_add_mod (20 * i) 882
  have hcast : (882:ℝ) * ((20 * i / 882 : ℕ) : ℝ) +
      ((20 * i % 882 : ℕ) : ℝ) = 20 * (i : ℝ) := by exact_mod_cast hdm
  have harg : 2 * Real.pi * 1000 * i / 44100 =
      Real.pi * ((20 * i % 882 : ℕ) : ℝ) / 441 +
        ((20 * i / 882 : ℕ) : ℝ) * (2 * Real.pi) := by
    linear_combination (-(Real.pi / 441)) * hcast
  rw [harg]
  exact Real.sin_periodic.nat_mul (20 * i / 882) _

/-- Helper: no frame of the 10-second 1 kHz sine at amplitude 0.3 counts
as silent at the default threshold. -/
theorem sine_frame_not_silent (k : ℕ) (hk : k < 430) :
    ¬ (isSilentFrame (1/1000 : ℝ)
        (frameAt 1024 ((List.range 441000).map fun i : ℕ =>
          3/10 * Real.sin (2 * Real.pi * 1000 * i / 44100)) k) = true) := by
  obtain ⟨j, hj, h74, h367⟩ := sine_hit k hk
  have hiN : 1024 * k + j < 441000 := by omega
  have hmem := frameAt_map_range_mem
    (fun i => 3/10 * Real.sin (2 * Real.pi * 1000 * i / 44100))
    441000 1024 k j hj hiN
  have hsin : (1/2 : ℝ) ≤
      Real.sin (2 * Real.pi * 1000 * ((1024 * k + j : ℕ) : ℝ) / 44100) := by
    rw [sine_arg_reduction (1024 * k + j)]
    exact sin_ge_half _ h74 h367
  have hone :
      Real.sin (2 * Real.pi * 1000 * ((1024 * k + j : ℕ) : ℝ) / 44100) ≤ 1 :=
    Real.sin_le_one _
  have hsq : (9/400 : ℝ) ≤
      (3/10 * Real.sin (2 * Real.pi * 1000 * ((1024 * k + j : ℕ) : ℝ) / 44100)) *
      (3/10 * Real.sin (2 * Real.pi * 1000 * ((1024 * k + j : ℕ) : ℝ) / 44100)) := by
    nlinarith [hsin]
  have hsum := sq_le_sumSq hmem
  dsimp only at hsum
  have hlen : (frameAt 1024 ((List.range 441000).map fun i : ℕ =>
      3/10 * Real.sin (2 * Real.pi * 1000 * i / 44100)) k).length = 1024 := by
    apply frameAt_length
    simp only [List.length_map, List.length_range]
    omega
  unfold isSilentFrame
  rw [decide_eq_true_eq, not_lt, hlen]
  push_cast
  rw [le_div_iff₀ (by norm_num : (0:ℝ) < 1024)]
  nlinarith [hsum, hsq]

/-- Helper: the 10-second 1 kHz sine at amplitude 0.3 is not classified
silent at the default threshold and ratio. -/
theorem sine_not_silent :
    isAudioSilent (1/1000 : ℝ) (95/100)
      (some ((List.range 441000).map fun i : ℕ =>
        3/10 * Real.sin (2 * Real.pi * 1000 * i / 44100))) = false := by
  have hlen : ((List.range 441000).map fun i : ℕ =>
      3/10 * Real.sin (2 * Real.pi * 1000 * i / 44100)).length = 441000 := by
    rw [List.length_map, List.length_range]
  have h0 : ((List.range 441000).map fun i : ℕ =>
      3/10 * Real.sin (2 * Real.pi * 1000 * i / 44100)).length ≠ 0 := by
    rw [hlen]; norm_num
  have ht : ((List.range 441000).map fun i : ℕ =>
      3/10 * Real.sin (2 * Real.pi * 1000 * i / 44100)).length / 1024 ≠ 0 := by
    rw [hlen]
    decide
  rw [isAudioSilent_eval _ _ _ h0 ht]
  have hcount : (List.range (((List.range 441000).map fun i : ℕ =>
      3/10 * Real.sin (2 * Real.pi * 1000 * i / 44100)).length / 1024)).countP
      (fun k => isSilentFrame (1/1000 : ℝ) (frameAt 1024
        ((List.range 441000).map fun i : ℕ =>
          3/10 * Real.sin (2 * Real.pi * 1000 * i / 44100)) k)) = 0 := by
    rw [List.countP_eq_zero]
    intro k hk
    rw [hlen] at hk
    have hk430 : k < 430 := List.mem_range.1 hk
    exact sine_frame_not_silent k hk430
  rw [hcount]
  rw [decide_eq_false_iff_not, not_lt]
  rw [Nat.cast_zero, zero_div]
  norm_num

/-- Helper: with a positive threshold, the embedded squared comparison
agrees frame by frame with the source's `sqrt(mean(frame**2)) < threshold`,
giving the ratio characterization in terms of the actual RMS. -/
theorem isAudioSilent_rms (thr ratio : ℝ) (data : List ℝ) (hthr : 0 < thr)
    (h0 : data.length ≠ 0) (ht : data.length / 1024 ≠ 0) :
    (isAudioSilent thr ratio (some data) = true ↔
      ratio < (((List.range (data.length / 1024)).countP fun k =>
        decide (Real.sqrt (sumSq (frameAt 1024 data k) /
          ((frameAt 1024 data k).length : ℝ)) < thr)) : ℝ) /
        ((data.length / 1024 : ℕ) : ℝ)) := by
  rw [isAudioSilent_eval _ _ _ h0 ht, decide_eq_true_eq]
  have hcong : ∀ k ∈ List.range (data.length / 1024),
      (isSilentFrame thr (frameAt 1024 data k) = true ↔
      decide (Real.sqrt (sumSq (frameAt 1024 data k) /
        ((frameAt 1024 data k).length : ℝ)) < thr) = true) := by
    intro k _
    unfold isSilentFrame
    rw [decide_eq_true_eq, decide_eq_true_eq, Real.sqrt_lt' hthr, sq]
  rw [List.countP_congr hcong]

/-- C5: a buffer with at least one full 1024-sample frame is classified
silent exactly when the fraction of its full frames whose RMS is below
`silence_threshold` strictly exceeds `silence_ratio`; the 10-second
(441000-sample) all-zero buffer is silent under the defaults
(`silence_threshold = 0.001`, `silence_ratio = 0.95`); the 10-second
1 kHz sine at amplitude 0.3 is not; and a session at least
`min_duration` long either of whose two buffers is classified silent is
discarded as invalid by `_process_recording`. -/
theorem silenceClassifier_spec :
    (∀ (thr ratio : ℝ) (data : List ℝ), 0 < thr → data.length ≠ 0 →
      data.length / 1024 ≠ 0 →
      (isAudioSilent thr ratio (some data) = true ↔
        ratio < (((List.range (data.length / 1024)).countP fun k =>
          decide (Real.sqrt (sumSq (frameAt 1024 data k) /
            ((frameAt 1024 data k).length : ℝ)) < thr)) : ℝ) /
          ((data.length / 1024 : ℕ) : ℝ))) ∧
    isAudioSilent (1/1000 : ℚ) (95/100)
      (some (List.replicate 441000 (0:ℚ))) = true ∧
    isAudioSilent (1/1000 : ℝ) (95/100)
      (some ((List.range 441000).map fun i : ℕ =>
        3/10 * Real.sin (2 * Real.pi * 1000 * i / 44100))) = false ∧
    (∀ (minDur thr ratio dur : ℚ) (mic sys : Option (List ℚ)),
      ¬ dur < minDur →
      (isAudioSilent thr ratio mic || isAudioSilent thr ratio sys) = true →
      processRecording minDur thr ratio dur mic sys =
        ProcessOutcome.singleSideSilent) :=
  ⟨isAudioSilent_rms, isAudioSilent_replicate_zero 441000,
    sine_not_silent, processRecording_silent_discard⟩

/-- Witness for C5: the RMS characterization instantiated at one all-zero
1024-sample frame, and a 10-second session with an empty mic buffer being
discarded as single-side silent. -/
theorem silenceClassifier_spec_witness :
    (isAudioSilent (1/1000 : ℝ) (95/100)
        (some (List.replicate 1024 (0:ℝ))) = true ↔
      (95/100 : ℝ) <
        (((List.range ((List.replicate 1024 (0:ℝ)).length / 1024)).countP
          fun k => decide (Real.sqrt
            (sumSq (frameAt 1024 (List.replicate 1024 (0:ℝ)) k) /
            ((frameAt 1024 (List.replicate 1024 (0:ℝ)) k).length : ℝ)) <
            1/1000)) : ℝ) /
        (((List.replicate 1024 (0:ℝ)).length / 1024 : ℕ) : ℝ)) ∧
    processRecording (5:ℚ) (1/1000) (95/100) 10 (some [])
      (some (List.replicate 2048 (1:ℚ))) =
      ProcessOutcome.singleSideSilent := by
  constructor
  · exact silenceClassifier_spec.1 (1/1000) (95/100)
      (List.replicate 1024 (0:ℝ)) (by norm_num)
      (by rw [List.length_replicate]; norm_num)
      (by rw [List.length_replicate]; decide)
  · exact silenceClassifier_spec.2.2.2 5 (1/1000) (95/100) 10 (some [])
      (some (List.replicate 2048 (1:ℚ))) (by norm_num)
      (by rw [Bool.or_eq_true]; exact Or.inl rfl)

end Recorder
